import Mathlib

/-!
Verification of the `fz` racing game core against its specification.

The development shallowly embeds the Rust sources:
 * `src/curve.rs`     — `Curve`, `Curve::new`, `Curve::index`, `Curve::lerp`,
                        `Curve::nearest_ctrlp`
 * `src/kinematics.rs`— `KinematicPhysics`, `force`, `torque`, `simulate`
 * `src/controls.rs`  — `ship_controller`
 * `src/client.rs`    — the client race state machine (`GameMode`,
                        finish-line crossing / lap logic of `motion_update`)
 * `src/server.rs`    — the server race state machine (`win_reset`,
                        `client_state_update`, `conn_update`)

Rust `f32` scalars are modelled as real numbers; machine floats carry no
overflow semantics that the claims depend on.  Vector / quaternion /
transform operations provided by the external `cimvr_common` (glam /
nalgebra) dependency are modelled by their mathematical definitions.
-/

/-! ## Vectors (model of `glam::Vec3` / `nalgebra::Vector3<f32>`) -/

/-- Three-dimensional real vector, the model of `Vec3` / `Vector3<f32>`. -/
@[ext]
structure Vec3 where
  x : ℝ
  y : ℝ
  z : ℝ

namespace Vec3

noncomputable def zero : Vec3 := ⟨0, 0, 0⟩

noncomputable def add (a b : Vec3) : Vec3 := ⟨a.x + b.x, a.y + b.y, a.z + b.z⟩

noncomputable def sub (a b : Vec3) : Vec3 := ⟨a.x - b.x, a.y - b.y, a.z - b.z⟩

noncomputable def neg (a : Vec3) : Vec3 := ⟨-a.x, -a.y, -a.z⟩

/-- Scalar multiplication `v * s` (glam multiplies componentwise). -/
noncomputable def smul (s : ℝ) (a : Vec3) : Vec3 := ⟨s * a.x, s * a.y, s * a.z⟩

/-- Scalar division `v / s`. -/
noncomputable def sdiv (a : Vec3) (s : ℝ) : Vec3 := ⟨a.x / s, a.y / s, a.z / s⟩

noncomputable def dot (a b : Vec3) : ℝ := a.x * b.x + a.y * b.y + a.z * b.z

/-- Euclidean norm, the model of `Vec3::length`. -/
noncomputable def length (a : Vec3) : ℝ := Real.sqrt (a.dot a)

/-- Model of `Vec3::normalize_or_zero`: zero when the length is zero,
otherwise the unit vector in the same direction. -/
noncomputable def normalize_or_zero (a : Vec3) : Vec3 :=
  if a.length = 0 then zero else a.sdiv a.length

noncomputable def unitX : Vec3 := ⟨1, 0, 0⟩

noncomputable def unitY : Vec3 := ⟨0, 1, 0⟩

noncomputable def unitZ : Vec3 := ⟨0, 0, 1⟩

noncomputable instance : Add Vec3 := ⟨add⟩

noncomputable instance : Sub Vec3 := ⟨sub⟩

noncomputable instance : Neg Vec3 := ⟨neg⟩

end Vec3

/-! ## Quaternions (model of `glam::Quat` / `nalgebra::UnitQuaternion<f32>`) -/

/-- Quaternion with real components, the model of `Quat`. -/
@[ext]
structure Quat where
  w : ℝ
  x : ℝ
  y : ℝ
  z : ℝ

namespace Quat

/-- Identity rotation. -/
noncomputable def one : Quat := ⟨1, 0, 0, 0⟩

/-- Hamilton product. -/
noncomputable def mul (a b : Quat) : Quat :=
  ⟨a.w * b.w - a.x * b.x - a.y * b.y - a.z * b.z,
   a.w * b.x + a.x * b.w + a.y * b.z - a.z * b.y,
   a.w * b.y - a.x * b.z + a.y * b.w + a.z * b.x,
   a.w * b.z + a.x * b.y - a.y * b.x + a.z * b.w⟩

noncomputable instance : Mul Quat := ⟨mul⟩

/-- Conjugate.  For the unit quaternions used throughout the game this is
the inverse rotation (model of `Quat::inverse` / `UnitQuaternion::inverse`). -/
noncomputable def conj (a : Quat) : Quat := ⟨a.w, -a.x, -a.y, -a.z⟩

noncomputable def dot (a b : Quat) : ℝ := a.w * b.w + a.x * b.x + a.y * b.y + a.z * b.z

noncomputable def qneg (a : Quat) : Quat := ⟨-a.w, -a.x, -a.y, -a.z⟩

noncomputable def qadd (a b : Quat) : Quat := ⟨a.w + b.w, a.x + b.x, a.y + b.y, a.z + b.z⟩

noncomputable def qsmul (s : ℝ) (a : Quat) : Quat := ⟨s * a.w, s * a.x, s * a.y, s * a.z⟩

noncomputable def qnorm (a : Quat) : ℝ := Real.sqrt (a.dot a)

noncomputable def normalize (a : Quat) : Quat := qsmul (1 / a.qnorm) a

/-- Rotation of a vector by a (unit) quaternion: the vector part of
`q * (0, v) * conj q`. -/
noncomputable def rotate (q : Quat) (v : Vec3) : Vec3 :=
  let r := q * (⟨0, v.x, v.y, v.z⟩ : Quat) * q.conj
  ⟨r.x, r.y, r.z⟩

/-- Model of `glam::Quat::slerp` (spherical linear interpolation): take the
shortest arc, fall back to normalized linear interpolation for nearly
parallel rotations, otherwise use the trigonometric formula. -/
noncomputable def slerp (a b : Quat) (s : ℝ) : Quat :=
  let d := a.dot b
  let b' := if d < 0 then qneg b else b
  let d' := if d < 0 then -d else d
  if d' > 0.9995 then
    normalize (qadd a (qsmul s (qadd b' (qneg a))))
  else
    let theta := Real.arccos d'
    qadd (qsmul (Real.sin ((1 - s) * theta) / Real.sin theta) a)
         (qsmul (Real.sin (s * theta) / Real.sin theta) b')

/-- Model of `nalgebra::UnitQuaternion::from_scaled_axis`: the exponential
of an axis–angle vector.  `exp v` rotates by `‖v‖` radians about `v/‖v‖`;
the zero vector yields the identity rotation. -/
noncomputable def fromScaledAxis (v : Vec3) : Quat :=
  let theta := v.length
  if theta = 0 then one
  else
    ⟨Real.cos (theta / 2),
     Real.sin (theta / 2) * (v.x / theta),
     Real.sin (theta / 2) * (v.y / theta),
     Real.sin (theta / 2) * (v.z / theta)⟩

/-- Rotation about the X axis by `a` radians. -/
noncomputable def rotX (a : ℝ) : Quat := ⟨Real.cos (a / 2), Real.sin (a / 2), 0, 0⟩

/-- Rotation about the Y axis by `a` radians. -/
noncomputable def rotY (a : ℝ) : Quat := ⟨Real.cos (a / 2), 0, Real.sin (a / 2), 0⟩

/-- Rotation about the Z axis by `a` radians. -/
noncomputable def rotZ (a : ℝ) : Quat := ⟨Real.cos (a / 2), 0, 0, Real.sin (a / 2)⟩

/-- Model of `glam::Quat::from_euler(EulerRot::XYZ, x, y, z)`. -/
noncomputable def fromEulerXYZ (x y z : ℝ) : Quat := rotX x * rotY y * rotZ z

end Quat

/-! ## Transforms (model of `cimvr_common::Transform`) -/

/-- Rigid transform: a position and an orientation. -/
@[ext]
structure Transform where
  pos : Vec3
  orient : Quat

namespace Transform

/-- Model of `Transform::identity` (= `Transform::new` / `default`). -/
noncomputable def identity : Transform := ⟨Vec3.zero, Quat.one⟩

/-- Model of `Transform::with_position`. -/
noncomputable def with_position (t : Transform) (p : Vec3) : Transform := ⟨p, t.orient⟩

/-- Composition `a * b`: apply `b`, then `a`. -/
noncomputable def mul (a b : Transform) : Transform :=
  ⟨a.pos + a.orient.rotate b.pos, a.orient * b.orient⟩

noncomputable instance : Mul Transform := ⟨mul⟩

/-- Model of `Transform::inverse` (orientations are unit quaternions). -/
noncomputable def inverse (t : Transform) : Transform :=
  ⟨t.orient.conj.rotate (-t.pos), t.orient.conj⟩

/-- Model of `Transform::lerp_slerp` from `cimvr_common`: position is
linearly interpolated, orientation is spherically interpolated. -/
noncomputable def lerp_slerp (a b : Transform) (t : ℝ) : Transform :=
  ⟨a.pos + Vec3.smul t (b.pos - a.pos), a.orient.slerp b.orient t⟩

end Transform

/-! ## Curve (src/curve.rs) -/

/-- The track curve: an ordered, cyclic sequence of oriented control
points (`pub struct Curve { pub ctrlps: Vec<Transform> }`). -/
structure Curve where
  ctrlps : List Transform

namespace Curve

/-- Model of `Curve::new`:  `Self { ctrlps }` — the input vector is stored
unchanged, without any validation. -/
def new (ctrlps : List Transform) : Curve := ⟨ctrlps⟩

/-- Model of `Curve::index`: the indices of the control points behind and
in front of parameter `t`.  `t.floor() as usize` saturates at zero for
negative inputs, which `Int.toNat` reproduces. -/
noncomputable def index (c : Curve) (t : ℝ) : ℕ × ℕ :=
  let i := (⌊t⌋ : ℤ).toNat
  let len := c.ctrlps.length
  (i % len, (i + 1) % len)

/-- Model of `Curve::lerp`: interpolate between the two bracketing control
points with the fractional part of `t` as blend weight.  (Rust indexing
panics out of bounds; `getD` is only reached in bounds for the non-empty
curves the claims quantify over.) -/
noncomputable def lerp (c : Curve) (t : ℝ) : Transform :=
  let bi := c.index t
  Transform.lerp_slerp (c.ctrlps.getD bi.1 Transform.identity)
    (c.ctrlps.getD bi.2 Transform.identity) (Int.fract t)

/-- The `f32::MAX` sentinel used by `Curve::nearest_ctrlp`. -/
noncomputable def f32MAX : ℝ := 340282346638528859811704183484516925440

/-- Model of `Curve::nearest_ctrlp`: linear scan for the control point of
minimal Euclidean distance, ties broken by first-found (lowest index). -/
noncomputable def nearest_ctrlp (c : Curve) (pt : Vec3) : ℕ :=
  (c.ctrlps.enum.foldl
    (fun acc ip =>
      let dist := (ip.2.pos - pt).length
      if dist < acc.2 then (ip.1, dist) else acc)
    (0, f32MAX)).1

end Curve

/-! ## Kinematics (src/kinematics.rs) -/

/-- Model of `KinematicPhysics`. -/
@[ext]
structure KinematicPhysics where
  vel : Vec3
  mass : ℝ
  ang_vel : Vec3
  moment : ℝ

namespace KinematicPhysics

/-- Model of `KinematicPhysics::force`: `self.vel += f / self.mass`. -/
noncomputable def force (k : KinematicPhysics) (f : Vec3) : KinematicPhysics :=
  { k with vel := k.vel + f.sdiv k.mass }

/-- Model of `KinematicPhysics::torque`: `self.ang_vel += t / self.moment`. -/
noncomputable def torque (k : KinematicPhysics) (t : Vec3) : KinematicPhysics :=
  { k with ang_vel := k.ang_vel + t.sdiv k.moment }

/-- Modelled from the spec: `KinematicPhysics::default()` is called by the
server (`src/server.rs`) but no `Default` impl is under `src/`; the spec
describes newly connected ships as having zero velocity, matching a derived
all-zero default. -/
noncomputable def default : KinematicPhysics := ⟨Vec3.zero, 0, Vec3.zero, 0⟩

end KinematicPhysics

/-- One entity's step of `kinematics::simulate`:
`t.pos += kine.vel * dt; t.orient *= UnitQuaternion::from_scaled_axis(kine.ang_vel * dt)`. -/
noncomputable def simulateStep (dt : ℝ) (e : Transform × KinematicPhysics) :
    Transform × KinematicPhysics :=
  ({ pos := e.1.pos + Vec3.smul dt e.2.vel,
     orient := e.1.orient * Quat.fromScaledAxis (Vec3.smul dt e.2.ang_vel) }, e.2)

/-- Model of `kinematics::simulate`: the per-tick integrator applied to
every entity carrying a transform and a kinematic state. -/
noncomputable def simulate (dt : ℝ) (entities : List (Transform × KinematicPhysics)) :
    List (Transform × KinematicPhysics) :=
  entities.map (simulateStep dt)

/-- Model of `InputAbstraction`: the abstract input vector. -/
structure InputAbstraction where
  pitch : ℝ
  yaw : ℝ
  roll : ℝ
  throttle : ℝ

/-- Model of `ShipCharacteristics`. -/
structure ShipCharacteristics where
  mass : ℝ
  moment : ℝ
  max_twirl : ℝ
  max_impulse : ℝ

/-- `const TRACK_WIDTH: f32 = 32.;` -/
def TRACK_WIDTH : ℝ := 32

/-- `const TRACK_HEIGHT: f32 = 10.;` -/
def TRACK_HEIGHT : ℝ := 10

/-- `const TRACK_LENGTH: f32 = 10.;` -/
def TRACK_LENGTH : ℝ := 10

/-- Model of `controls::lerp`: `(1. - t) * a + t * b`. -/
noncomputable def lerpScalar (a b t : ℝ) : ℝ := (1 - t) * a + t * b

/-- The control point nearest to a position (`path.ctrlps[path.nearest_ctrlp(pos)]`,
lines 19–20 of src/controls.rs). -/
noncomputable def nearest_ctrlp_transform (path : Curve) (pos : Vec3) : Transform :=
  path.ctrlps.getD (path.nearest_ctrlp pos) Transform.identity

/-- The ship's transform expressed in the nearest control point's local
frame (`nearest_iso.inverse() * tf_iso`, line 23 of src/controls.rs). -/
noncomputable def path_local_space (path : Curve) (tf : Transform) : Transform :=
  (nearest_ctrlp_transform path tf.pos).inverse * tf

open Classical in
/-- The collision-detection block of `ship_controller` (lines 25–35 of
src/controls.rs): if the track-local lateral or vertical offset leaves the
track cross-section, snap the transform to the control point and zero both
velocities; otherwise leave the state unchanged. -/
noncomputable def collision_response (nearest pls tf : Transform)
    (kt : KinematicPhysics) : Transform × KinematicPhysics :=
  if |pls.pos.z| > TRACK_WIDTH / 2 ∨ |pls.pos.y| > TRACK_HEIGHT / 2 then
    (nearest, { kt with ang_vel := Vec3.zero, vel := Vec3.zero })
  else
    (tf, kt)

open Classical in
/-- Model of `controls::ship_controller`, staged exactly as the source:
nearest control point and local frame, collision response, thrust, roll
input, steering slerp, lateral thrusters, vertical rail lock. -/
noncomputable def ship_controller (dt : ℝ) (ship : ShipCharacteristics)
    (input : InputAbstraction) (path : Curve) (tf0 : Transform)
    (kt0 : KinematicPhysics) : Transform × KinematicPhysics :=
  let nearest_idx := path.nearest_ctrlp tf0.pos
  let nearest := path.ctrlps.getD nearest_idx Transform.identity
  let pls := nearest.inverse * tf0
  -- Collision detection
  let tk1 := collision_response nearest pls tf0 kt0
  let tf1 := tk1.1
  let kt1 := tk1.2
  -- Force controls
  let force_live := |input.throttle| > 0.1
  let wanted_impulse :=
    if force_live then
      Vec3.smul (input.throttle * ship.max_impulse) (tf1.orient.rotate Vec3.unitX)
    else Vec3.zero
  -- Apply directional impulse
  let kt2 :=
    if wanted_impulse ≠ Vec3.zero then
      let total_impulse := min wanted_impulse.length ship.max_impulse
      let norm := wanted_impulse.normalize_or_zero
      let impulse := Vec3.smul total_impulse norm
      kt1.force (Vec3.smul dt impulse)
    else kt1
  -- Roll input
  let desired_roll := if |input.roll| > 0.05 then input.roll else 0
  -- Follow path direction smoothly
  let future_pt := path.lerp (nearest_idx + 3.5)
  let wanted_orient := future_pt.orient * Quat.fromEulerXYZ (desired_roll * Real.pi / 16) 0 0
  let track_rel_vel := nearest.orient.conj.rotate kt2.vel
  let lerp_speed := dt * track_rel_vel.x / TRACK_LENGTH
  let tf2 : Transform := ⟨tf1.pos, tf1.orient.slerp wanted_orient (lerp_speed * 2)⟩
  -- Horizontal thrusters
  let horiz_force := nearest.orient.rotate Vec3.unitZ
  let available_power := |track_rel_vel.x| ^ (1.1 : ℝ) + |track_rel_vel.z| + 1
  let kt3 := { kt2 with
    vel := kt2.vel + Vec3.smul (dt * available_power * Real.sin (desired_roll * Real.pi / 2)) horiz_force }
  -- Zero velocity component in the y direction relative to the track
  let kt4 := { kt3 with
    vel := kt3.vel - Vec3.smul track_rel_vel.y (nearest.orient.rotate Vec3.unitY) }
  -- Lock Y pos to track
  let wanted_y := nearest.pos.y
  let tf3 : Transform := ⟨⟨tf2.pos.x, lerpScalar tf2.pos.y wanted_y lerp_speed, tf2.pos.z⟩, tf2.orient⟩
  (tf3, kt4)

/-! ## Client race state machine (src/client.rs) -/

/-- `const N_LAPS: usize = 3;` -/
def N_LAPS : ℕ := 3

/-- `const FINISH_LINE_INDEX: f32 = 10.;` -/
noncomputable def FINISH_LINE_INDEX : ℝ := 10

/-- Model of `finish_line_pos`: the curve sample at the finish-line index. -/
noncomputable def finish_line_pos (curve : Curve) : Transform :=
  curve.lerp FINISH_LINE_INDEX

/-- Model of the client `GameMode` enum. -/
inductive GameMode
  | spectator (watching : Option ℕ) (ready : Bool)
  | racing (client_id : ℕ) (lap : ℕ)
deriving DecidableEq

/-- Model of `ClientState::game_mode`: a received `StartRace` event enters
`Racing` with the lap counter reset to 0. -/
def game_mode_on_start (client_id : ℕ) : GameMode := GameMode.racing client_id 0

/-- The area sanity check of `motion_update` (src/client.rs lines 492–493)
as a function of the ship's nearest curve control-point index:
`(nearest as i32 - FINISH_LINE_INDEX as i32).abs() < 3` with
`FINISH_LINE_INDEX as i32 = 10`. -/
def area_sanity_check (nearest : ℕ) : Prop := |(nearest : ℤ) - 10| < 3

/-- The finish-line crossing test of `motion_update` (src/client.rs lines
494–496) as a function of the finish-line-local X coordinates of the last
and the new ship position: `lastX < 0. && newX > 0.`. -/
def cross_over (lastX newX : ℝ) : Prop := lastX < 0 ∧ newX > 0

/-- The finish-line-local X coordinate of a transform,
`(finish_line.inverse() * t).pos.x`. -/
noncomputable def finish_line_local_x (path : Curve) (t : Transform) : ℝ :=
  ((finish_line_pos path).inverse * t).pos.x

/-- Modelled from the spec: `CountdownAnimation::elapsed` is called by
`motion_update` but is not defined under `src/` (src/countdown.rs lacks it);
the spec describes lap and finish times as the elapsed time since the
countdown start. -/
noncomputable def countdown_elapsed (time start_time : ℝ) : ℝ := time - start_time

/-- Outputs of one run of the finish-line section of `motion_update`: the
new game mode, the `Finished` message sent (if any, carrying the elapsed
race time) and the lap chat message sent (if any, carrying lap and time). -/
structure LapTickResult where
  mode : GameMode
  finished : Option ℝ
  chat : Option (ℕ × ℝ)

/-- Model of the finish-line section of `ClientState::motion_update`
(src/client.rs lines 491–521), as a function of the combined
area-sanity/cross-over condition, the current game mode and the elapsed
race clock.  On a valid crossing in `Racing` mode the lap counter
increments (a chat message fires first, suppressed at lap 9); when the
incremented lap exceeds `N_LAPS`, a `Finished` message carrying the elapsed
time is sent and the mode returns to `Spectator`. -/
def motion_update_lap (check : Prop) [Decidable check] (mode : GameMode)
    (elapsed : ℝ) : LapTickResult :=
  if check then
    match mode with
    | GameMode.racing client_id lap =>
        let chat := if lap ≠ 9 then some (lap, elapsed) else none
        let lap' := lap + 1
        if lap' > N_LAPS then
          ⟨GameMode.spectator none false, some elapsed, chat⟩
        else
          ⟨GameMode.racing client_id lap', none, chat⟩
    | m => ⟨m, none, none⟩
  else ⟨mode, none, none⟩

open Classical in
/-- The finish-line section of `motion_update` with its condition computed
from the geometry, exactly as in the source: the nearest-index area check
conjoined with the local-X sign flip. -/
noncomputable def motion_update_crossing (path : Curve) (last tf : Transform)
    (mode : GameMode) (elapsed : ℝ) : LapTickResult :=
  motion_update_lap
    (area_sanity_check (path.nearest_ctrlp tf.pos) ∧
      cross_over (finish_line_local_x path last) (finish_line_local_x path tf))
    mode elapsed

/-! ## Claims C1 and C6 (finish-line crossing, lap invariants) -/

instance (n : ℕ) : Decidable (area_sanity_check n) := by
  unfold area_sanity_check
  exact inferInstance

noncomputable instance (a b : ℝ) : Decidable (cross_over a b) := by
  unfold cross_over
  exact inferInstance

/-! ## Server race state machine (src/server.rs) -/

/-- Model of `ServerShipComponent`. -/
structure ServerShipComponent where
  client_id : ℕ
  is_racing : Bool
  is_ready : Bool
deriving DecidableEq

/-- Model of the mutable fields of `ServerState`. -/
structure ServerState where
  winner : Option (ℕ × ℝ)
  reset_countdown : ℝ

/-- `const RESET_TIME: f32 = 50.;` -/
noncomputable def RESET_TIME : ℝ := 50

/-- Marking pass of `win_reset` (src/server.rs lines 83–87): every ship
record of the finishing client gets `is_racing = false`. -/
def markFinished (ships : List ServerShipComponent) (cid : ℕ) :
    List ServerShipComponent :=
  ships.map fun s => if s.client_id = cid then { s with is_racing := false } else s

open Classical in
/-- One iteration of the `Finished`-inbox loop of `win_reset` (src/server.rs
lines 81–99): mark the sender's records as no longer racing; then, unless a
recorded winner has a strictly earlier finish time, adopt the sender as the
winner and push the reset deadline to `server_time + RESET_TIME`. -/
noncomputable def processFinish (server_time : ℝ)
    (acc : ServerState × List ServerShipComponent) (msg : ℕ × ℝ) :
    ServerState × List ServerShipComponent :=
  let ships := markFinished acc.2 msg.1
  match acc.1.winner with
  | some (_, winning_time) =>
      if msg.2 > winning_time then (acc.1, ships)
      else (⟨some (msg.1, msg.2), server_time + RESET_TIME⟩, ships)
  | none => (⟨some (msg.1, msg.2), server_time + RESET_TIME⟩, ships)

/-- The `Finished`-inbox loop of `win_reset`, over all messages received
this tick in order. -/
noncomputable def win_reset_finishes (server_time : ℝ) (msgs : List (ℕ × ℝ))
    (st : ServerState) (ships : List ServerShipComponent) :
    ServerState × List ServerShipComponent :=
  msgs.foldl (processFinish server_time) (st, ships)

open Classical in
/-- The reset tail of `win_reset` (src/server.rs lines 101–112): with a
winner recorded, clear it once the reset deadline has passed or no ship is
still racing. -/
noncomputable def win_reset_clear (server_time : ℝ) (st : ServerState)
    (ships : List ServerShipComponent) : ServerState :=
  let anybody_racing := ships.any fun s => s.is_racing
  if st.winner.isSome ∧ (server_time > st.reset_countdown ∨ anybody_racing = false) then
    { st with winner := none }
  else st

/-- Model of `ServerState::win_reset` for one tick: the finish loop
followed by the reset check. -/
noncomputable def win_reset (server_time : ℝ) (msgs : List (ℕ × ℝ))
    (st : ServerState) (ships : List ServerShipComponent) :
    ServerState × List ServerShipComponent :=
  let r := win_reset_finishes server_time msgs st ships
  (win_reset_clear server_time r.1 r.2, r.2)

/-- Ready-toggle pass of `client_state_update` (src/server.rs lines
131–143): each pending `ClientReady` message sets `is_ready` on the
sender's records, in message order. -/
def applyReadyToggles (msgs : List (ℕ × Bool))
    (ships : List ServerShipComponent) : List ServerShipComponent :=
  msgs.foldl
    (fun acc m =>
      acc.map fun s => if s.client_id = m.1 then { s with is_ready := m.2 } else s)
    ships

/-- The `all_ready` / `any_ready` aggregation of `client_state_update`
(src/server.rs lines 145–153). -/
def readyFlags (ships : List ServerShipComponent) : Bool × Bool :=
  ships.foldl (fun acc s => (acc.1 && s.is_ready, acc.2 || s.is_ready)) (true, false)

/-- The spawn advance of the race-start loop (src/server.rs lines 171–172):
`position.pos.x -= 5.; position.pos.z = -position.pos.z;`. -/
noncomputable def advance_spawn (p : Transform) : Transform :=
  ⟨⟨p.pos.x - 5, p.pos.y, -p.pos.z⟩, p.orient⟩

/-- The initial spawn transform,
`Transform::new().with_position(Vec3::new(0., 0., -5.))`. -/
noncomputable def start_position : Transform :=
  Transform.identity.with_position ⟨0, 0, -5⟩

/-- Model of the race-start loop (src/server.rs lines 156–178): walk the
ship records in order, send each client `StartRace` carrying the current
spawn transform, advance the spawn, and set every record to
`is_ready = false, is_racing = true`. -/
noncomputable def start_race_loop (pos : Transform) :
    List ServerShipComponent → List (ℕ × Transform) × List ServerShipComponent
  | [] => ([], [])
  | s :: rest =>
      let next := start_race_loop (advance_spawn pos) rest
      ((s.client_id, pos) :: next.1,
       { s with is_ready := false, is_racing := true } :: next.2)

/-- Model of `ServerState::client_state_update`: apply the pending ready
toggles, then start the race when some record exists and all are ready.
Returns the updated records and the `StartRace` messages sent
(client id, spawn transform). -/
noncomputable def client_state_update (msgs : List (ℕ × Bool))
    (ships : List ServerShipComponent) :
    List ServerShipComponent × List (ℕ × Transform) :=
  let ships1 := applyReadyToggles msgs ships
  let flags := readyFlags ships1
  if flags.2 && flags.1 then
    let r := start_race_loop start_position ships1
    (r.2, r.1)
  else (ships1, [])

/-- The spawn transform of the `i`-th ship record in iteration order:
laterally offset by 5 per index, depth mirrored per index. -/
noncomputable def spawn_transform (i : ℕ) : Transform :=
  ⟨⟨-5 * i, 0, -5 * (-1) ^ i⟩, Quat.one⟩

/-- Model of `ShipEntity`: the components attached to a server-side ship
entity (record, transform, kinematics). -/
structure ShipEntity where
  ssc : ServerShipComponent
  tf : Transform
  kt : KinematicPhysics

/-- The new-connection filter of `conn_update` (src/server.rs lines
195–202): roster ids with no existing ship record. -/
def new_connections (roster : List ℕ) (ships : List ShipEntity) : List ℕ :=
  roster.filter fun cid => ! ships.any fun s => s.ssc.client_id == cid

/-- The ship entity created for a newly connected client (src/server.rs
lines 204–218). -/
noncomputable def new_ship (cid : ℕ) : ShipEntity :=
  ⟨⟨cid, false, false⟩, Transform.identity, KinematicPhysics.default⟩

/-- Model of `ServerState::conn_update`: drop the records of vanished
clients and create a fresh record per newly connected client. -/
noncomputable def conn_update (roster : List ℕ) (ships : List ShipEntity) :
    List ShipEntity :=
  (ships.filter fun s => roster.any fun r => r == s.ssc.client_id)
    ++ (new_connections roster ships).map new_ship

/-! ## Claims C7 and C9 (Curve) -/

theorem Curve.index_add_len (c : Curve) (t : ℝ) (ht : 0 ≤ t) :
    c.index (t + c.ctrlps.length) = c.index t := by
  unfold Curve.index
  have hfloor : ⌊t + (c.ctrlps.length : ℝ)⌋ = ⌊t⌋ + c.ctrlps.length := by
    rw [show ((c.ctrlps.length : ℝ)) = ((c.ctrlps.length : ℤ) : ℝ) by push_cast; ring]
    exact Int.floor_add_int t _
  have h0 : (0 : ℤ) ≤ ⌊t⌋ := Int.floor_nonneg.mpr ht
  have htoNat : (⌊t⌋ + (c.ctrlps.length : ℤ)).toNat = ⌊t⌋.toNat + c.ctrlps.length := by
    omega
  simp only [hfloor, htoNat, Prod.mk.injEq]
  refine ⟨Nat.add_mod_right _ _, ?_⟩
  rw [show ⌊t⌋.toNat + c.ctrlps.length + 1 = ⌊t⌋.toNat + 1 + c.ctrlps.length by omega]
  exact Nat.add_mod_right _ _

/-- C7: for every curve with at least one control point and every `t ≥ 0`,
`Curve.lerp t = Curve.lerp (t + len)`: the bracketing indices are taken
modulo `len` and the blend weight is the fractional part of `t`, so the
interpolated transform is periodic over one full loop. -/
theorem claim_C7_lerp_periodic (c : Curve) (t : ℝ) (ht : 0 ≤ t)
    (hlen : 1 ≤ c.ctrlps.length) :
    c.lerp (t + c.ctrlps.length) = c.lerp t := by
  unfold Curve.lerp
  rw [Curve.index_add_len c t ht]
  rw [show Int.fract (t + (c.ctrlps.length : ℝ)) = Int.fract t by
    rw [show ((c.ctrlps.length : ℝ)) = ((c.ctrlps.length : ℤ) : ℝ) by push_cast; ring]
    exact Int.fract_add_int t _]

/-- Witness for C7: a concrete one-point curve and `t = 1/2`. -/
theorem claim_C7_witness :
    (Curve.new [Transform.identity]).lerp (1 / 2 + (Curve.new [Transform.identity]).ctrlps.length)
      = (Curve.new [Transform.identity]).lerp (1 / 2) :=
  claim_C7_lerp_periodic (Curve.new [Transform.identity]) (1 / 2) (by norm_num)
    (by simp [Curve.new])

/-- C9 counterexample: `Curve::new` does not reject the empty control-point
sequence — constructing from `[]` succeeds and yields a curve with zero
control points, violating the claimed length invariant. -/
theorem claim_C9_counterexample : (Curve.new []).ctrlps.length = 0 := rfl

/-- C9 (amended): `Curve::new` performs no validation at all — the
constructed curve stores exactly the given control-point sequence, empty or
not; non-emptiness is only an obligation on callers. -/
theorem claim_C9_no_validation (l : List Transform) : (Curve.new l).ctrlps = l := rfl

/-! ## Claims C3 and C8 (kinematics integrator) -/

/-- Value of `from_scaled_axis` on the axis–angle vector `(pi, 0, 0)`:
a half-turn about the X axis, the quaternion `i`. -/
theorem fromScaledAxis_pi_x : Quat.fromScaledAxis ⟨Real.pi, 0, 0⟩ = ⟨0, 1, 0, 0⟩ := by
  have hlen : Vec3.length ⟨Real.pi, 0, 0⟩ = Real.pi := by
    unfold Vec3.length Vec3.dot
    norm_num
    exact Real.sqrt_mul_self Real.pi_pos.le
  unfold Quat.fromScaledAxis
  simp only [hlen]
  rw [if_neg Real.pi_ne_zero]
  norm_num [Real.cos_pi_div_two, Real.sin_pi_div_two, div_self Real.pi_ne_zero]

/-- C3 counterexample: one integrator tick does not compose the incremental
rotation on the left.  For an entity oriented as a half-turn about Y with
angular velocity `(pi, 0, 0)` and `dt = 1`, the code yields `j * i = -k`
while the claimed left composition yields `i * j = k`. -/
theorem claim_C3_counterexample :
    ((simulate 1 [(⟨Vec3.zero, ⟨0, 0, 1, 0⟩⟩, ⟨Vec3.zero, 1, ⟨Real.pi, 0, 0⟩, 1⟩)]).get
        ⟨0, by simp [simulate]⟩).1.orient
      ≠ Quat.fromScaledAxis (Vec3.smul 1 ⟨Real.pi, 0, 0⟩) * (⟨0, 0, 1, 0⟩ : Quat) := by
  have hsm : Vec3.smul 1 (⟨Real.pi, 0, 0⟩ : Vec3) = ⟨Real.pi, 0, 0⟩ := by
    unfold Vec3.smul; norm_num
  simp only [simulate, simulateStep, List.map, List.get, hsm, fromScaledAxis_pi_x]
  intro h
  have h2 : Quat.mul ⟨0, 0, 1, 0⟩ ⟨0, 1, 0, 0⟩ = Quat.mul ⟨0, 1, 0, 0⟩ ⟨0, 0, 1, 0⟩ := h
  unfold Quat.mul at h2
  simp only [Quat.mk.injEq] at h2
  norm_num at h2

/-- C3 (amended): one tick of the kinematics integrator maps every entity
carrying a transform and a kinematic state to `pos += vel * dt` and
`orient = orient ∘ exp(ang_vel * dt)` — the incremental rotation is composed
on the RIGHT of the existing orientation (angular velocity expressed in the
body frame), and the kinematic state itself is unchanged. -/
theorem claim_C3_amended (dt : ℝ) (es : List (Transform × KinematicPhysics)) :
    (simulate dt es).length = es.length ∧
    ∀ (i : ℕ) (h1 : i < (simulate dt es).length) (h2 : i < es.length),
      ((simulate dt es).get ⟨i, h1⟩).1.pos
          = (es.get ⟨i, h2⟩).1.pos + Vec3.smul dt (es.get ⟨i, h2⟩).2.vel ∧
      ((simulate dt es).get ⟨i, h1⟩).1.orient
          = (es.get ⟨i, h2⟩).1.orient
              * Quat.fromScaledAxis (Vec3.smul dt (es.get ⟨i, h2⟩).2.ang_vel) ∧
      ((simulate dt es).get ⟨i, h1⟩).2 = (es.get ⟨i, h2⟩).2 := by
  refine ⟨List.length_map _ _, ?_⟩
  intro i h1 h2
  simp [simulate, simulateStep]

/-- Witness for C3 (amended): the concrete singleton entity list of the
counterexample, at index 0. -/
theorem claim_C3_amended_witness :
    ((simulate 1 [(⟨Vec3.zero, ⟨0, 0, 1, 0⟩⟩, ⟨Vec3.zero, 1, ⟨Real.pi, 0, 0⟩, 1⟩)]).get
        ⟨0, by simp [simulate]⟩).1.pos
      = Vec3.zero + Vec3.smul 1 Vec3.zero :=
  ((claim_C3_amended 1 [(⟨Vec3.zero, ⟨0, 0, 1, 0⟩⟩, ⟨Vec3.zero, 1, ⟨Real.pi, 0, 0⟩, 1⟩)]).2
    0 (by simp [simulate]) (by simp)).1

/-- C8: applying `force(mass * v)` to a kinematic state with positive mass
and zero pre-existing velocity yields velocity exactly `v`, and one
integration tick then advances the position by exactly `v * dt` while
leaving the velocity at `v`. -/
theorem claim_C8_force_roundtrip (kt : KinematicPhysics) (tf : Transform)
    (v : Vec3) (dt : ℝ) (hm : 0 < kt.mass) (hv : kt.vel = Vec3.zero) :
    (kt.force (Vec3.smul kt.mass v)).vel = v ∧
    (simulateStep dt (tf, kt.force (Vec3.smul kt.mass v))).2.vel = v ∧
    (simulateStep dt (tf, kt.force (Vec3.smul kt.mass v))).1.pos
      = tf.pos + Vec3.smul dt v := by
  have hvel : (kt.force (Vec3.smul kt.mass v)).vel = v := by
    unfold KinematicPhysics.force Vec3.smul Vec3.sdiv
    rw [hv]
    show Vec3.add _ _ = v
    unfold Vec3.add Vec3.zero
    ext <;> (field_simp)
  refine ⟨hvel, ?_, ?_⟩
  · simp only [simulateStep]
    exact hvel
  · simp only [simulateStep]
    rw [hvel]

/-- Witness for C8: mass 1, `v = (2, 0, 0)`, `dt = 1`, starting from rest at
the identity transform. -/
theorem claim_C8_witness :
    ((⟨Vec3.zero, 1, Vec3.zero, 1⟩ : KinematicPhysics).force
        (Vec3.smul (1 : ℝ) ⟨2, 0, 0⟩)).vel = ⟨2, 0, 0⟩ :=
  (claim_C8_force_roundtrip ⟨Vec3.zero, 1, Vec3.zero, 1⟩ Transform.identity
    ⟨2, 0, 0⟩ 1 one_pos rfl).1

/-! ## Ship flight controller (src/controls.rs) -/

/-- Unfolding helper for quaternion products. -/
@[simp]
theorem quat_mul_def (a b : Quat) : a * b = Quat.mul a b := rfl

/-- Unfolding helper for transform products. -/
@[simp]
theorem transform_mul_def (a b : Transform) : a * b = Transform.mul a b := rfl

/-- Unfolding helper for vector sums. -/
@[simp]
theorem Vec3.add_def (a b : Vec3) : a + b = Vec3.add a b := rfl

/-- Unfolding helper for vector differences. -/
@[simp]
theorem Vec3.sub_def (a b : Vec3) : a - b = Vec3.sub a b := rfl

/-- Unfolding helper for vector negation. -/
@[simp]
theorem Vec3.neg_def (a : Vec3) : -a = Vec3.neg a := rfl

open Classical in

open Classical in

/-! ## Claim C5 (boundary recovery) -/

/-- C5: if the ship's position in the nearest control point's local frame
has lateral (Z) offset of absolute value above 16 (half the track width) or
vertical (Y) offset above 5 (half the track height), the controller's
collision response sets the ship's transform to the control point's
transform and zeroes both velocities, and the ship leaves the whole
`ship_controller` call with angular velocity exactly zero. -/
theorem claim_C5_boundary_recovery (dt : ℝ) (ship : ShipCharacteristics)
    (input : InputAbstraction) (path : Curve) (tf : Transform)
    (kt : KinematicPhysics)
    (h : |(path_local_space path tf).pos.z| > 16 ∨ |(path_local_space path tf).pos.y| > 5) :
    collision_response (nearest_ctrlp_transform path tf.pos)
        (path_local_space path tf) tf kt
      = (nearest_ctrlp_transform path tf.pos,
         { kt with ang_vel := Vec3.zero, vel := Vec3.zero }) ∧
    (ship_controller dt ship input path tf kt).2.ang_vel = Vec3.zero := by
  have h' : |(path_local_space path tf).pos.z| > TRACK_WIDTH / 2 ∨
      |(path_local_space path tf).pos.y| > TRACK_HEIGHT / 2 := by
    unfold TRACK_WIDTH TRACK_HEIGHT
    norm_num
    exact h
  have hc : collision_response (nearest_ctrlp_transform path tf.pos)
      (path_local_space path tf) tf kt
      = (nearest_ctrlp_transform path tf.pos,
         { kt with ang_vel := Vec3.zero, vel := Vec3.zero }) := by
    unfold collision_response
    rw [if_pos h']
  refine ⟨hc, ?_⟩
  have hc' := hc
  unfold path_local_space nearest_ctrlp_transform at hc'
  simp only [ship_controller, hc', KinematicPhysics.force,
    apply_ite KinematicPhysics.ang_vel, ite_self]

/-- Value of `nearest_ctrlp` for the one-point witness curve. -/
theorem nearest_ctrlp_singleton :
    Curve.nearest_ctrlp (Curve.new [Transform.identity]) ⟨0, 0, 20⟩ = 0 := by
  unfold Curve.nearest_ctrlp
  rw [show (Curve.new [Transform.identity]).ctrlps.enum = [(0, Transform.identity)] from rfl]
  rw [List.foldl_cons, List.foldl_nil]
  show (if _ < _ then _ else ((0 : ℕ), Curve.f32MAX)).1 = 0
  split <;> rfl

/-- Witness for C5: a one-point curve at the origin and a ship 20 units off
track laterally leaves the controller with zero angular velocity. -/
theorem claim_C5_witness :
    (ship_controller 1 ⟨1000, 9000, 5, 30⟩ ⟨0, 0, 0, 0⟩ (Curve.new [Transform.identity])
        ⟨⟨0, 0, 20⟩, Quat.one⟩ ⟨Vec3.zero, 1, Vec3.zero, 1⟩).2.ang_vel = Vec3.zero := by
  refine (claim_C5_boundary_recovery 1 ⟨1000, 9000, 5, 30⟩ ⟨0, 0, 0, 0⟩
    (Curve.new [Transform.identity]) ⟨⟨0, 0, 20⟩, Quat.one⟩ ⟨Vec3.zero, 1, Vec3.zero, 1⟩ ?_).2
  left
  unfold path_local_space nearest_ctrlp_transform
  rw [show (⟨⟨0, 0, 20⟩, Quat.one⟩ : Transform).pos = ⟨0, 0, 20⟩ from rfl]
  rw [nearest_ctrlp_singleton]
  rw [show (Curve.new [Transform.identity]).ctrlps.getD 0 Transform.identity
      = Transform.identity from rfl]
  simp only [transform_mul_def, Transform.inverse, Transform.identity, Transform.mul,
    Quat.conj, Quat.one, Quat.rotate, quat_mul_def, Quat.mul, Vec3.zero, Vec3.add_def,
    Vec3.add, Vec3.neg_def, Vec3.neg]
  norm_num

open Classical in

/-- C1 counterexample: the claimed crossing condition ("new local X
non-negative", "nearest index within 3 of 10") does not match the code.
With local X going from -1 to exactly 0 at nearest index 10, and with local
X going from -1 to +1 at nearest index 13 (distance exactly 3), the claimed
condition holds yet the code registers no crossing: the lap counter stays
at 0. -/
theorem claim_C1_counterexample :
    ((motion_update_lap (area_sanity_check 10 ∧ cross_over (-1) 0)
        (GameMode.racing 0 0) 0).mode = GameMode.racing 0 0
      ∧ ((-1 : ℝ) < 0 ∧ (0 : ℝ) ≥ 0) ∧ area_sanity_check 10) ∧
    ((motion_update_lap (area_sanity_check 13 ∧ cross_over (-1) 1)
        (GameMode.racing 0 0) 0).mode = GameMode.racing 0 0
      ∧ ((-1 : ℝ) < 0 ∧ (1 : ℝ) > 0) ∧ |((13 : ℕ) : ℤ) - 10| ≤ 3) := by
  have h1 : ¬ (area_sanity_check 10 ∧ cross_over (-1) (0 : ℝ)) := by
    rintro ⟨-, -, h⟩
    exact lt_irrefl 0 h
  have h2 : ¬ (area_sanity_check 13 ∧ cross_over (-1) (1 : ℝ)) := by
    rintro ⟨h, -⟩
    revert h
    decide
  refine ⟨⟨?_, by norm_num, by decide⟩, ⟨?_, by norm_num, by decide⟩⟩
  · unfold motion_update_lap
    rw [if_neg h1]
  · unfold motion_update_lap
    rw [if_neg h2]

/-- C1 (amended): in the client race state machine a finish-line crossing
is registered exactly when the finish-line-local X of the last position is
negative, the local X of the new position is STRICTLY positive, and the
nearest curve control-point index is STRICTLY within 3 of the finish line's
index 10 (`|idx - 10| < 3`).  Concretely, a racing ship moving from local
X = -1 to +1 with nearest index 10 increments the lap counter, and the same
sign flip with nearest index 50 does not. -/
theorem claim_C1_crossing (id lap : ℕ) (e lastX newX : ℝ) (n : ℕ)
    (hlap : lap < N_LAPS) :
    ((motion_update_lap (area_sanity_check n ∧ cross_over lastX newX)
          (GameMode.racing id lap) e).mode = GameMode.racing id (lap + 1)
      ↔ (lastX < 0 ∧ newX > 0) ∧ |(n : ℤ) - 10| < 3) ∧
    (motion_update_lap (area_sanity_check 10 ∧ cross_over (-1) 1)
        (GameMode.racing id lap) e).mode = GameMode.racing id (lap + 1) ∧
    (motion_update_lap (area_sanity_check 50 ∧ cross_over (-1) 1)
        (GameMode.racing id lap) e).mode = GameMode.racing id lap := by
  have hnotrigger : ¬ (lap + 1 > N_LAPS) := by omega
  refine ⟨?_, ?_, ?_⟩
  · by_cases hc : area_sanity_check n ∧ cross_over lastX newX
    · unfold motion_update_lap
      rw [if_pos hc]
      simp only [if_neg hnotrigger]
      constructor
      · intro _
        exact ⟨hc.2, hc.1⟩
      · intro _
        trivial
    · unfold motion_update_lap
      rw [if_neg hc]
      constructor
      · intro h
        simp only [GameMode.racing.injEq] at h
        omega
      · intro h
        exact absurd ⟨h.2, h.1⟩ hc
  · have hc : area_sanity_check 10 ∧ cross_over (-1) (1 : ℝ) := by
      refine ⟨by decide, by norm_num [cross_over]⟩
    unfold motion_update_lap
    rw [if_pos hc]
    simp only [if_neg hnotrigger]
  · have hc : ¬ (area_sanity_check 50 ∧ cross_over (-1) (1 : ℝ)) := by
      rintro ⟨h, -⟩
      revert h
      decide
    unfold motion_update_lap
    rw [if_neg hc]

/-- Witness for C1 (amended): a racing ship on lap 0 at elapsed time 0. -/
theorem claim_C1_witness :
    (motion_update_lap (area_sanity_check 10 ∧ cross_over (-1) 1)
        (GameMode.racing 0 0) 0).mode = GameMode.racing 0 1 :=
  (claim_C1_crossing 0 0 0 (-1) 1 10 (by decide)).2.1

/-- C6: while the client is in `Racing` mode, one tick of the finish-line
logic never decreases the lap counter and keeps it at most `N_LAPS` for as
long as the mode stays `Racing` (so, starting from the lap-0 state entered
on `StartRace`, the counter never exceeds `N_LAPS + 1 = 4`); on the
crossing that takes the lap count above `N_LAPS`, the client emits
`Finished` carrying the elapsed race time and transitions to
`Spectator { watching := none, ready := false }`. -/
theorem claim_C6_lap_invariants (id lap : ℕ) (C : Prop) [Decidable C]
    (time start_time : ℝ) (hlap : lap ≤ N_LAPS) :
    (∀ id2 lap2,
        (motion_update_lap C (GameMode.racing id lap)
            (countdown_elapsed time start_time)).mode = GameMode.racing id2 lap2 →
          lap ≤ lap2 ∧ lap2 ≤ N_LAPS) ∧
    (C → lap + 1 > N_LAPS →
        (motion_update_lap C (GameMode.racing id lap)
            (countdown_elapsed time start_time)).mode
            = GameMode.spectator none false ∧
        (motion_update_lap C (GameMode.racing id lap)
            (countdown_elapsed time start_time)).finished
            = some (countdown_elapsed time start_time)) ∧
    game_mode_on_start id = GameMode.racing id 0 := by
  refine ⟨?_, ?_, rfl⟩
  · intro id2 lap2 h
    by_cases hC : C
    · unfold motion_update_lap at h
      rw [if_pos hC] at h
      by_cases hfin : lap + 1 > N_LAPS
      · simp only [if_pos hfin] at h
        exact absurd h (by simp)
      · simp only [if_neg hfin] at h
        simp only [GameMode.racing.injEq] at h
        omega
    · unfold motion_update_lap at h
      rw [if_neg hC] at h
      simp only [GameMode.racing.injEq] at h
      omega
  · intro hC hfin
    unfold motion_update_lap
    rw [if_pos hC]
    simp [hfin]

/-- Witness for C6: the final crossing of a race, from lap `N_LAPS` = 3,
emits `Finished` with the elapsed time and returns to spectator mode. -/
theorem claim_C6_witness :
    (motion_update_lap True (GameMode.racing 0 3) (countdown_elapsed 5 2)).mode
        = GameMode.spectator none false ∧
    (motion_update_lap True (GameMode.racing 0 3) (countdown_elapsed 5 2)).finished
        = some (countdown_elapsed 5 2) :=
  (claim_C6_lap_invariants 0 3 True 5 2 (by decide)).2.1 trivial (by decide)

open Classical in

open Classical in

/-! ## Claim C2 (finish ordering) -/

/-- C2 counterexample: an equal finish time does NOT keep the
earlier-recorded winner.  With winner `(1, 5)` already recorded, a
`Finished(5)` from client 2 replaces the record with `(2, 5)`. -/
theorem claim_C2_counterexample :
    (win_reset_finishes 100 [(2, 5)] ⟨some (1, 5), 0⟩ []).1.winner = some (2, 5) := by
  simp only [win_reset_finishes, List.foldl_cons, List.foldl_nil, processFinish]
  norm_num

/-- C2 (amended): on receiving `Finished(finish_time)` from a client, every
ship record of that client gets `is_racing = false`, and the winner record
is replaced with `(client_id, finish_time)` — with the reset deadline set to
`server_time + RESET_TIME` (= 50) — exactly when no winner is recorded or
`finish_time` is at most (≤) the recorded winner's time: an EQUAL finish
time replaces the record, the later-reported client winning the tie. -/
theorem claim_C2_finish_rules (server_time : ℝ) (st : ServerState)
    (ships : List ServerShipComponent) (c : ℕ) (t : ℝ) :
    (∀ s ∈ (win_reset_finishes server_time [(c, t)] st ships).2,
        s.client_id = c → s.is_racing = false) ∧
    (st.winner = none →
        (win_reset_finishes server_time [(c, t)] st ships).1
          = ⟨some (c, t), server_time + RESET_TIME⟩) ∧
    (∀ w wt, st.winner = some (w, wt) → t ≤ wt →
        (win_reset_finishes server_time [(c, t)] st ships).1
          = ⟨some (c, t), server_time + RESET_TIME⟩) ∧
    (∀ w wt, st.winner = some (w, wt) → t > wt →
        (win_reset_finishes server_time [(c, t)] st ships).1 = st) := by
  have hships : (win_reset_finishes server_time [(c, t)] st ships).2
      = markFinished ships c := by
    simp only [win_reset_finishes, List.foldl_cons, List.foldl_nil, processFinish]
    match h : st.winner with
    | none => simp
    | some (w, wt) =>
        by_cases hgt : t > wt
        · simp [if_pos hgt]
        · simp [if_neg hgt]
  refine ⟨?_, ?_, ?_, ?_⟩
  · intro s hs hc
    rw [hships] at hs
    unfold markFinished at hs
    rcases List.mem_map.mp hs with ⟨s0, -, rfl⟩
    by_cases h0 : s0.client_id = c
    · rw [if_pos h0]
    · rw [if_neg h0] at hc ⊢
      exact absurd hc h0
  · intro hw
    simp only [win_reset_finishes, List.foldl_cons, List.foldl_nil, processFinish, hw]
  · intro w wt hw hle
    simp only [win_reset_finishes, List.foldl_cons, List.foldl_nil, processFinish, hw]
    rw [if_neg (not_lt.mpr hle)]
  · intro w wt hw hgt
    simp only [win_reset_finishes, List.foldl_cons, List.foldl_nil, processFinish, hw]
    rw [if_pos hgt]

/-- Witness for C2 (amended): with no winner recorded, a `Finished(12)`
from client 1 at server time 100 records winner `(1, 12)` and deadline
`150`. -/
theorem claim_C2_witness :
    (win_reset_finishes 100 [(1, 12)] ⟨none, 0⟩ []).1
      = ⟨some (1, 12), 100 + RESET_TIME⟩ :=
  (claim_C2_finish_rules 100 ⟨none, 0⟩ [] 1 12).2.1 rfl

/-! ## Claim C4 (ready/start protocol) -/

theorem readyFlags_foldl (ships : List ServerShipComponent) (a b : Bool) :
    ships.foldl (fun acc s => (acc.1 && s.is_ready, acc.2 || s.is_ready)) (a, b)
      = (a && ships.all (fun s => s.is_ready), b || ships.any (fun s => s.is_ready)) := by
  induction ships generalizing a b with
  | nil => simp
  | cons s rest ih =>
      simp only [List.foldl_cons, List.all_cons, List.any_cons, ih,
        Bool.and_assoc, Bool.or_assoc]

theorem readyFlags_eq (ships : List ServerShipComponent) :
    readyFlags ships = (ships.all (fun s => s.is_ready), ships.any (fun s => s.is_ready)) := by
  unfold readyFlags
  rw [readyFlags_foldl]
  simp

theorem start_condition_iff (ships1 : List ServerShipComponent) :
    ((readyFlags ships1).2 && (readyFlags ships1).1) = true ↔
      ships1 ≠ [] ∧ ∀ s ∈ ships1, s.is_ready = true := by
  rw [readyFlags_eq]
  simp only [Bool.and_eq_true, List.all_eq_true, List.any_eq_true]
  constructor
  · rintro ⟨⟨s, hs, -⟩, hall⟩
    exact ⟨List.ne_nil_of_mem hs, hall⟩
  · rintro ⟨hne, hall⟩
    obtain ⟨s, hs⟩ := List.exists_mem_of_ne_nil _ hne
    exact ⟨⟨s, hs, hall s hs⟩, hall⟩

theorem start_race_loop_lengths (ships : List ServerShipComponent) (pos : Transform) :
    (start_race_loop pos ships).1.length = ships.length ∧
    (start_race_loop pos ships).2.length = ships.length := by
  induction ships generalizing pos with
  | nil => simp [start_race_loop]
  | cons s rest ih =>
      simp only [start_race_loop, List.length_cons]
      exact ⟨by rw [(ih _).1], by rw [(ih _).2]⟩

theorem start_race_loop_flags (ships : List ServerShipComponent) (pos : Transform)
    (s : ServerShipComponent) (hs : s ∈ (start_race_loop pos ships).2) :
    s.is_ready = false ∧ s.is_racing = true := by
  induction ships generalizing pos with
  | nil => simp [start_race_loop] at hs
  | cons a rest ih =>
      simp only [start_race_loop, List.mem_cons] at hs
      rcases hs with rfl | hs
      · exact ⟨rfl, rfl⟩
      · exact ih _ hs

theorem start_race_loop_get (ships : List ServerShipComponent) :
    ∀ (pos : Transform) (i : ℕ) (h1 : i < (start_race_loop pos ships).1.length)
      (h2 : i < ships.length),
      (start_race_loop pos ships).1.get ⟨i, h1⟩
        = ((ships.get ⟨i, h2⟩).client_id, advance_spawn^[i] pos) := by
  induction ships with
  | nil => intro pos i h1 h2; simp at h2
  | cons a rest ih =>
      intro pos i h1 h2
      match i with
      | 0 => rfl
      | Nat.succ j =>
          have h1' : j < (start_race_loop (advance_spawn pos) rest).1.length := by
            have := (start_race_loop_lengths rest (advance_spawn pos)).1
            simp only [List.length_cons] at h2
            omega
          have h2' : j < rest.length := by
            simp only [List.length_cons] at h2
            omega
          have := ih (advance_spawn pos) j h1' h2'
          simp only [start_race_loop, List.get_cons_succ]
          rw [this, Function.iterate_succ_apply]

theorem advance_spawn_iterate (i : ℕ) :
    advance_spawn^[i] start_position = spawn_transform i := by
  induction i with
  | zero =>
      unfold start_position spawn_transform Transform.identity Transform.with_position
      simp only [Function.iterate_zero, id_eq, Transform.mk.injEq, Vec3.mk.injEq]
      norm_num
  | succ i ih =>
      rw [Function.iterate_succ_apply', ih]
      unfold advance_spawn spawn_transform
      simp only [Transform.mk.injEq, Vec3.mk.injEq]
      refine ⟨⟨?_, by trivial, ?_⟩, by trivial⟩
      · push_cast
        ring
      · rw [pow_succ]
        ring

theorem spawn_transform_injective (i j : ℕ) (hij : i ≠ j) :
    spawn_transform i ≠ spawn_transform j := by
  intro h
  apply hij
  have hx := congrArg (fun t => t.pos.x) h
  simp only [spawn_transform] at hx
  have : (i : ℝ) = j := by linarith
  exact_mod_cast this

/-- C4: after applying the pending ready toggles, the server starts the
race exactly when at least one ship record exists and every record is
ready; on start, the `i`-th record's client is sent `StartRace` carrying
its own spawn transform `spawn_transform i`, those spawn transforms are
pairwise distinct across indices, and every record ends the tick with
`is_ready = false` and `is_racing = true`.  With three records of which
only clients 1 and 2 toggled ready, no `StartRace` is sent. -/
theorem claim_C4_ready_start (msgs : List (ℕ × Bool))
    (ships : List ServerShipComponent) :
    ((client_state_update msgs ships).2 ≠ [] ↔
        (applyReadyToggles msgs ships ≠ [] ∧
          ∀ s ∈ applyReadyToggles msgs ships, s.is_ready = true)) ∧
    ((applyReadyToggles msgs ships ≠ [] ∧
        ∀ s ∈ applyReadyToggles msgs ships, s.is_ready = true) →
      (client_state_update msgs ships).2.length
          = (applyReadyToggles msgs ships).length ∧
      (∀ (i : ℕ) (h1 : i < (client_state_update msgs ships).2.length)
          (h2 : i < (applyReadyToggles msgs ships).length),
          (client_state_update msgs ships).2.get ⟨i, h1⟩
            = (((applyReadyToggles msgs ships).get ⟨i, h2⟩).client_id,
               spawn_transform i)) ∧
      (∀ s ∈ (client_state_update msgs ships).1,
          s.is_ready = false ∧ s.is_racing = true)) ∧
    (∀ i j : ℕ, i ≠ j → spawn_transform i ≠ spawn_transform j) ∧
    (client_state_update [(1, true), (2, true)]
        [⟨1, false, false⟩, ⟨2, false, false⟩, ⟨3, false, false⟩]).2 = [] := by
  by_cases hstart :
      ((readyFlags (applyReadyToggles msgs ships)).2 &&
        (readyFlags (applyReadyToggles msgs ships)).1) = true
  · have hiff := (start_condition_iff (applyReadyToggles msgs ships)).mp hstart
    have hup : client_state_update msgs ships
        = ((start_race_loop start_position (applyReadyToggles msgs ships)).2,
           (start_race_loop start_position (applyReadyToggles msgs ships)).1) := by
      unfold client_state_update
      rw [if_pos hstart]
    refine ⟨?_, ?_, spawn_transform_injective, ?_⟩
    · rw [hup]
      simp only [ne_eq]
      constructor
      · intro _
        exact hiff
      · intro _
        have hlen := (start_race_loop_lengths (applyReadyToggles msgs ships)
          start_position).1
        intro hnil
        rw [hnil] at hlen
        simp only [List.length_nil] at hlen
        exact hiff.1 (List.eq_nil_of_length_eq_zero hlen.symm)
    · intro _
      rw [hup]
      refine ⟨(start_race_loop_lengths _ _).1, ?_, ?_⟩
      · intro i h1 h2
        rw [start_race_loop_get _ _ i h1 h2, advance_spawn_iterate]
      · intro s hs
        exact start_race_loop_flags _ _ s hs
    · unfold client_state_update
      rw [if_neg (by decide)]
  · have hup : client_state_update msgs ships = (applyReadyToggles msgs ships, []) := by
      unfold client_state_update
      rw [if_neg hstart]
    refine ⟨?_, ?_, spawn_transform_injective, ?_⟩
    · rw [hup]
      simp only [ne_eq, not_true_eq_false]
      constructor
      · intro h
        exact h.elim
      · intro h
        exact absurd ((start_condition_iff _).mpr h) hstart
    · intro h
      exact absurd ((start_condition_iff _).mpr h) hstart
    · unfold client_state_update
      rw [if_neg (by decide)]

/-- Witness for C4: the three-record, two-ready scenario sends no
`StartRace`. -/
theorem claim_C4_witness :
    (client_state_update [(1, true), (2, true)]
        [⟨1, false, false⟩, ⟨2, false, false⟩, ⟨3, false, false⟩]).2 = [] :=
  (claim_C4_ready_start [] []).2.2.2

/-! ## Claim C10 (connection-monitor initialization) -/

/-- C10: every ship record created by the connection monitor for a newly
connected client is initialized with `is_racing = false`, `is_ready = false`,
an identity transform and zero (linear and angular) velocity, and the
created record is part of the post-tick record list; consequently a record
that is not ready — as a fresh record is — blocks the all-ready race-start
condition: no `StartRace` is sent while any record has `is_ready = false`
after the toggle pass. -/
theorem claim_C10_conn_init (roster : List ℕ) (ships : List ShipEntity)
    (cid : ℕ) (hc : cid ∈ new_connections roster ships) :
    new_ship cid ∈ conn_update roster ships ∧
    (new_ship cid).ssc.is_racing = false ∧
    (new_ship cid).ssc.is_ready = false ∧
    (new_ship cid).tf = Transform.identity ∧
    (new_ship cid).kt.vel = Vec3.zero ∧
    (new_ship cid).kt.ang_vel = Vec3.zero ∧
    (∀ (msgs : List (ℕ × Bool)) (records : List ServerShipComponent),
        (∃ s ∈ applyReadyToggles msgs records, s.is_ready = false) →
        (client_state_update msgs records).2 = []) := by
  refine ⟨?_, rfl, rfl, rfl, rfl, rfl, ?_⟩
  · unfold conn_update
    exact List.mem_append_right _ (List.mem_map_of_mem new_ship hc)
  · intro msgs records hnot
    obtain ⟨s, hs, hready⟩ := hnot
    unfold client_state_update
    rw [if_neg]
    intro habs
    have hall := ((start_condition_iff _).mp habs).2 s hs
    rw [hready] at hall
    exact Bool.false_ne_true hall

/-- Witness for C10: client 7 connecting to an empty server. -/
theorem claim_C10_witness :
    new_ship 7 ∈ conn_update [7] [] ∧ (new_ship 7).ssc.is_racing = false :=
  ⟨(claim_C10_conn_init [7] [] 7 (by decide)).1,
   (claim_C10_conn_init [7] [] 7 (by decide)).2.1⟩
